import Mathlib

/-!
Formal model of the photo compression pipeline implemented by
the function compress_images in src/compress_photos.py.

The embedding is shallow: images are records carrying a PIL-style mode
string, pixel dimensions and a pixel map; filesystem and codec effects
(Image.open, os.path.getsize, Image.resize, Image.save) are supplied as
oracle fields of type Except, one per library call, so that a raised
Python exception is an Except.error value.  Machine arithmetic is
modelled with Nat / Int / Rat; the ratio computed at line 65 of the
source is modelled as exact rational division, and the int() truncation
at line 66 as Nat division.
-/

namespace CompressPhotos

/-- A pixel with 8-bit channels, written as plain naturals.  For an LA
(luminance-alpha) image only the r and a fields are meaningful; for a
palette image the r field holds the palette index. -/
structure Pixel where
  r : Nat
  g : Nat
  b : Nat
  a : Nat
deriving DecidableEq

/-- The solid white fill (255, 255, 255) used for the background canvas
at line 57 of compress_photos.py, with full opacity. -/
def whitePixel : Pixel := ⟨255, 255, 255, 255⟩

/-- An in-memory decoded image: PIL mode string, dimensions, pixel map
and (for palette images) the palette lookup table. -/
structure Img where
  mode : String
  width : Nat
  height : Nat
  px : Nat → Nat → Pixel
  palette : Nat → Pixel

/-- Image.new(mode, size, color): a constant image, as built at line 57
of compress_photos.py. -/
def imageNew (mode : String) (w h : Nat) (c : Pixel) : Img :=
  ⟨mode, w, h, fun _ _ => c, fun _ => c⟩

/-- img.convert(RGBA) applied to a palette image (line 59 of
compress_photos.py): every palette index is replaced by its palette
entry and the mode becomes RGBA.  Dimensions are unchanged. -/
def convertRGBA (img : Img) : Img :=
  { img with mode := "RGBA", px := fun x y => img.palette (img.px x y).r }

/-- Alpha compositing of one channel value over a background channel
value, proportional to the 8-bit alpha mask: the semantics of
background.paste(img, mask=alpha) at line 60 of compress_photos.py. -/
def blend (src dst alpha : Nat) : Nat :=
  (src * alpha + dst * (255 - alpha)) / 255

/-- background.paste(img, mask=alpha): every channel of the source is
blended over the background using the source alpha as mask, and the
result is fully opaque.  The background keeps its mode and size. -/
def pasteMasked (bg src : Img) : Img :=
  { bg with px := fun x y =>
      let s := src.px x y
      let d := bg.px x y
      ⟨blend s.r d.r s.a, blend s.g d.g s.a, blend s.b d.b s.a, 255⟩ }

/-- Conversion of a source pixel to the RGB mode of the paste target:
an LA pixel expands its luminance to all three channels, any other
pixel keeps its channels; the result is opaque. -/
def toRGBPixel (mode : String) (p : Pixel) : Pixel :=
  if mode = "LA" then ⟨p.r, p.r, p.r, 255⟩ else ⟨p.r, p.g, p.b, 255⟩

/-- background.paste(img) with mask=None (the LA branch of line 60 of
compress_photos.py): the source fully overwrites the background after
conversion to the background mode; the alpha channel is not consulted. -/
def pasteUnmasked (bg src : Img) : Img :=
  { bg with px := fun x y => toRGBPixel src.mode (src.px x y) }

/-- Line 60 of compress_photos.py: the mask argument is the last band
of the source exactly when the (possibly converted) source mode is
RGBA, otherwise no mask is passed. -/
def pasteStep (background img2 : Img) : Img :=
  if img2.mode = "RGBA" then pasteMasked background img2
  else pasteUnmasked background img2

/-- Lines 56-61 of compress_photos.py: if the mode is RGBA, LA or P, a
white RGB canvas of the same size is built, a P image is first
converted to RGBA, and the image is pasted onto the canvas (with the
alpha mask exactly when the pasted image is RGBA); any other mode is
passed through unchanged. -/
def normalize (img : Img) : Img :=
  if img.mode = "RGBA" ∨ img.mode = "LA" ∨ img.mode = "P" then
    pasteStep (imageNew "RGB" img.width img.height whitePixel)
      (if img.mode = "P" then convertRGBA img else img)
  else img

/-- The PIL resampling filters; line 67 of compress_photos.py passes
Image.Resampling.LANCZOS. -/
inductive Resampling
  | nearest
  | box
  | bilinear
  | hamming
  | bicubic
  | lanczos
deriving DecidableEq

/-- The arguments of an img.resize call: target width, target height
and resampling filter. -/
structure ResizeRequest where
  targetW : Nat
  targetH : Nat
  filter : Resampling
deriving DecidableEq

/-- Lines 64-67 of compress_photos.py: when the image is wider than
max_width, the ratio max_width / width is formed and the new height is
the truncation of height * ratio (modelled as exact Nat division of
height * max_width by width), and a LANCZOS resize to (max_width,
new_height) is requested; otherwise the image passes through untouched
and no resize is requested. -/
def resizeStep (maxWidth : Nat) (img : Img) : Img × Option ResizeRequest :=
  if maxWidth < img.width then
    ({ img with width := maxWidth, height := img.height * maxWidth / img.width },
      some ⟨maxWidth, img.height * maxWidth / img.width, Resampling.lanczos⟩)
  else (img, none)

/-- The per-batch configuration: max_width and quality arguments of
compress_images. -/
structure Config where
  maxWidth : Nat
  quality : Nat
deriving DecidableEq

/-- The filesystem and codec effects of one file's pipeline, one field
per library call made by the loop body (lines 48-83): Image.open,
os.path.getsize on the input, img.resize at given target dimensions,
img.save, and os.path.getsize on the output.  An Except.error value
models a raised exception with its message. -/
structure FileOracle where
  decode : Except String Img
  originalSize : Except String Nat
  resizeCall : Nat → Nat → Except String Unit
  save : Except String Unit
  compressedSize : Except String Nat

/-- One entry of the batch report: per-file outcome, with sizes and
reduction percentage on success, or the caught exception message. -/
inductive FileResult
  | success (originalSize compressedSize : Nat) (reduction : ℚ)
  | error (msg : String)
deriving DecidableEq

/-- Whether a FileResult is a success. -/
def FileResult.isSuccess : FileResult → Bool
  | .success _ _ _ => true
  | .error _ => false

/-- The observable effects of one iteration of the loop at lines
44-86: the amount added to total_original_size (line 53) if that point
was reached, the amount added to total_compressed_size (line 78) if
that point was reached, whether img.save wrote the output file (line
74), the resize request if one was issued (line 67), and the recorded
outcome. -/
structure ProcessOut where
  addedOriginal : Option Nat
  addedCompressed : Option Nat
  wrote : Bool
  resizeRequested : Option ResizeRequest
  result : FileResult
deriving DecidableEq

/-- The outcome of the resize stage for a decoded image: when lines
64-67 request a resize, the outcome of that img.resize library call,
otherwise success. -/
def resizeOutcome (cfg : Config) (o : FileOracle) (img : Img) : Except String Unit :=
  match (resizeStep cfg.maxWidth (normalize img)).2 with
  | some r => o.resizeCall r.targetW r.targetH
  | none => Except.ok ()

/-- The body of one loop iteration (lines 48-86 of compress_photos.py)
with its try/except wrapper: each stage runs in order (open, getsize,
normalize, resize, save, getsize, reduction) and the first raised
exception is caught and recorded as an error outcome; effects already
performed before the raise (the two total increments and the output
write) are kept.  The reduction at line 80 divides by the original
size and raises a ZeroDivisionError when it is zero, after both totals
have already been incremented. -/
def processFile (cfg : Config) (o : FileOracle) : ProcessOut :=
  match o.decode with
  | .error e => ⟨none, none, false, none, .error e⟩
  | .ok img0 =>
    match o.originalSize with
    | .error e => ⟨none, none, false, none, .error e⟩
    | .ok orig =>
      let req := (resizeStep cfg.maxWidth (normalize img0)).2
      match resizeOutcome cfg o img0 with
      | .error e => ⟨some orig, none, false, req, .error e⟩
      | .ok _ =>
        match o.save with
        | .error e => ⟨some orig, none, false, req, .error e⟩
        | .ok _ =>
          match o.compressedSize with
          | .error e => ⟨some orig, none, true, req, .error e⟩
          | .ok comp =>
            if orig = 0 then
              ⟨some orig, some comp, true, req, .error "division by zero"⟩
            else
              ⟨some orig, some comp, true, req,
                .success orig comp ((1 - (comp : ℚ) / (orig : ℚ)) * 100)⟩

/-- The contribution of one file to total_original_size, read off the
oracle: its original size exactly when Image.open and the input
getsize both succeed (line 53 is reached), else zero. -/
def origContrib (cfg : Config) (o : FileOracle) : Nat :=
  match o.decode with
  | .error _ => 0
  | .ok _ =>
    match o.originalSize with
    | .error _ => 0
    | .ok n => n

/-- The contribution of one file to total_compressed_size, read off
the oracle: the output size exactly when every stage up to and
including the output getsize succeeds (line 78 is reached), else
zero.  The later reduction computation does not affect it. -/
def compContrib (cfg : Config) (o : FileOracle) : Nat :=
  match o.decode with
  | .error _ => 0
  | .ok img =>
    match o.originalSize with
    | .error _ => 0
    | .ok _ =>
      match resizeOutcome cfg o img with
      | .error _ => 0
      | .ok _ =>
        match o.save with
        | .error _ => 0
        | .ok _ =>
          match o.compressedSize with
          | .error _ => 0
          | .ok k => k

/-- The index of the last occurrence of a dot in a character list, if
any. -/
def lastDotIdx : List Char → Option Nat
  | [] => none
  | c :: rest =>
    match lastDotIdx rest with
    | some j => some (j + 1)
    | none => if c = '.' then some 0 else none

/-- The stem component of os.path.splitext on a bare filename: the
text before the last dot, except that a name consisting only of
leading dots followed by no earlier non-dot character keeps its dots
(CPython genericpath._splitext with no path separator). -/
def splitextStemChars (cs : List Char) : List Char :=
  match lastDotIdx cs with
  | none => cs
  | some i => if (cs.take i).any (fun c => c != '.') then cs.take i else cs

/-- os.path.splitext(filename)[0] for a bare filename. -/
def splitextStem (f : String) : String :=
  ⟨splitextStemChars f.toList⟩

/-- Line 71 of compress_photos.py: the output filename is the splitext
stem with the extension forced to the canonical JPEG extension. -/
def outputFilename (f : String) : String :=
  splitextStem f ++ ".jpg"

/-- Writing a file into a directory: the entry with the same name, if
present, is replaced in place (a silent overwrite), otherwise the
entry is appended. -/
def fsWrite : List (String × String) → String → String → List (String × String)
  | [], n, c => [(n, c)]
  | e :: rest, n, c => if e.1 = n then (n, c) :: rest else e :: fsWrite rest n c

/-- Looking a name up in a directory listing. -/
def dirLookup : List (String × String) → String → Option String
  | [], _ => none
  | e :: rest, n => if e.1 = n then some e.2 else dirLookup rest n

/-- The number of directory entries carrying a given name. -/
def countKey : List (String × String) → String → Nat
  | [], _ => 0
  | e :: rest, n => (if e.1 = n then 1 else 0) + countKey rest n

/-- The content of the last write with a given name in a write
sequence, if any write with that name occurs. -/
def lastAssign : List (String × String) → String → Option String
  | [], _ => none
  | e :: rest, n =>
    match lastAssign rest n with
    | some c => some c
    | none => if e.1 = n then some e.2 else none

/-- The two running sums accumulated across the loop (lines 41-42,
53 and 78 of compress_photos.py). -/
structure Totals where
  original : Nat
  compressed : Nat
deriving DecidableEq

/-- Line 94 of compress_photos.py: the printed total saved is the
difference of the two accumulated totals (as a signed integer, since
Python subtraction of ints is signed). -/
def totalSaved (t : Totals) : Int :=
  (t.original : Int) - (t.compressed : Int)

/-- The loop state of compress_images: the two running totals, the
output directory contents and the report emitted so far, in order. -/
structure BatchAcc where
  totals : Totals
  dir : List (String × String)
  report : List (String × ProcessOut)

/-- One iteration of the loop at lines 44-86: the file is processed,
the totals grow by the increments that were reached, the output file
(named by line 71) is written when img.save succeeded, and one report
entry is appended. -/
def batchStep (cfg : Config) (o : String → FileOracle) (acc : BatchAcc) (f : String) : BatchAcc :=
  let p := processFile cfg (o f)
  { totals := ⟨acc.totals.original + p.addedOriginal.getD 0,
               acc.totals.compressed + p.addedCompressed.getD 0⟩,
    dir := if p.wrote then fsWrite acc.dir (outputFilename f) f else acc.dir,
    report := acc.report ++ [(f, p)] }

/-- The whole per-file loop over the enumerated files, starting from
zero totals, an empty output directory and an empty report. -/
def runBatchFold (cfg : Config) (files : List String) (o : String → FileOracle) : BatchAcc :=
  files.foldl (batchStep cfg o) ⟨⟨0, 0⟩, [], []⟩

/-- The sequence of (output name, source file) writes performed by the
batch, in processing order: one write per file whose img.save call
succeeded. -/
def writeLog (cfg : Config) (files : List String) (o : String → FileOracle) : List (String × String) :=
  (files.filter (fun f => (processFile cfg (o f)).wrote)).map (fun f => (outputFilename f, f))

/-- Whether one character list ends with another, by comparing the
tail of the longer list: the semantics of Python str.endswith. -/
def endsWithChars (cs ss : List Char) : Bool :=
  if ss.length ≤ cs.length then decide (cs.drop (cs.length - ss.length) = ss) else false

/-- Python str.endswith on strings. -/
def strEndsWith (s pat : String) : Bool :=
  endsWithChars s.toList pat.toList

/-- ASCII lower-casing of one character. -/
def charLower (c : Char) : Char :=
  if 65 ≤ c.toNat ∧ c.toNat ≤ 90 then Char.ofNat (c.toNat + 32) else c

/-- ASCII upper-casing of one character. -/
def charUpper (c : Char) : Char :=
  if 97 ≤ c.toNat ∧ c.toNat ≤ 122 then Char.ofNat (c.toNat - 32) else c

/-- ASCII lower-casing of a string. -/
def strLower (s : String) : String :=
  ⟨s.toList.map charLower⟩

/-- ASCII upper-casing of a string. -/
def strUpper (s : String) : String :=
  ⟨s.toList.map charUpper⟩

/-- Line 24 of compress_photos.py: the fixed tuple of accepted
filename suffixes. -/
def image_extensions : List String :=
  [".jpg", ".jpeg", ".png", ".JPG", ".JPEG", ".PNG"]

/-- Line 28 of compress_photos.py: a directory entry is kept exactly
when the filename ends with one of the six literal suffixes. -/
def matchesExt (f : String) : Bool :=
  image_extensions.any (fun e => strEndsWith f e)

/-- Modelled from the spec: the enumeration predicate as the claim
states it, with the extension compared case-insensitively against the
set containing jpg, jpeg and png.  Stated independently of matchesExt
so the two can be compared. -/
def specCaseInsensitive (f : String) : Bool :=
  [".jpg", ".jpeg", ".png"].any (fun e => strEndsWith (strLower f) e)

/-- Modelled from the claim wording, amended: a filename is selected
exactly when it carries the all-lowercase or the all-uppercase form of
one of the three extensions.  Stated independently of matchesExt so
the two can be proved equal. -/
def sixSuffix (f : String) : Bool :=
  (["jpg", "jpeg", "png"] : List String).any
    (fun e => strEndsWith f ("." ++ e) || strEndsWith f ("." ++ strUpper e))

/-- The sum of the original sizes recorded in the successful report
entries only. -/
def sumOrigSuccess (report : List (String × ProcessOut)) : Nat :=
  (report.map (fun r =>
    match r.2.result with
    | .success o _ _ => o
    | .error _ => 0)).sum

/-- The number of successful report entries. -/
def successCount (report : List (String × ProcessOut)) : Nat :=
  report.countP (fun r => r.2.result.isSuccess)

/-- Line 95 of compress_photos.py: the overall reduction percentage,
dividing the compressed total by the original total.  The division
raises ZeroDivisionError exactly when the accumulated original total
is zero; none models that uncaught raise. -/
def overallReduction (t : Totals) : Option ℚ :=
  if t.original = 0 then none
  else some ((1 - (t.compressed : ℚ) / (t.original : ℚ)) * 100)

/-- The outcome of os.listdir on the input folder: the entry list, a
FileNotFoundError, or any other raised exception (for instance a
PermissionError on an unlistable directory). -/
inductive ListDirResult
  | ok (entries : List String)
  | fileNotFound
  | otherError (e : String)
deriving DecidableEq

/-- The observable outcome of one compress_images invocation: an
exception propagated out of the listdir call (only FileNotFoundError
is caught at line 29), the folder-not-found message with an early
return (lines 30-31), the no-files message with an early return
(lines 33-35), or a completed loop with its report, totals, final
output directory and summary reduction (none when line 95 raised). -/
inductive BatchOutcome
  | raisedAtListing (e : String)
  | folderNotFoundMessage
  | noFilesMessage
  | ran (report : List (String × ProcessOut)) (totals : Totals)
        (dir : List (String × String)) (overall : Option ℚ)
deriving DecidableEq

/-- The per-file report carried by an outcome (empty unless the loop
ran). -/
def BatchOutcome.reportOf : BatchOutcome → List (String × ProcessOut)
  | .ran r _ _ _ => r
  | _ => []

/-- The output directory contents carried by an outcome (empty unless
the loop ran). -/
def BatchOutcome.dirOf : BatchOutcome → List (String × String)
  | .ran _ _ d _ => d
  | _ => []

/-- Whether the invocation returned without an uncaught exception:
false when the listdir call raised something other than
FileNotFoundError, and false when the summary division at line 95
raised. -/
def BatchOutcome.nonFatal : BatchOutcome → Bool
  | .raisedAtListing _ => false
  | .ran _ _ _ none => false
  | _ => true

/-- Whether the folder-not-found error message of line 30 was
printed. -/
def BatchOutcome.printsFolderError : BatchOutcome → Bool
  | .folderNotFoundMessage => true
  | _ => false

/-- A compress_images invocation: whether os.makedirs created the
output directory, and the outcome.  The makedirs call at line 21 runs
before the listdir call, so the output directory is created on every
path. -/
structure BatchRun where
  outDirCreated : Bool
  outcome : BatchOutcome
deriving DecidableEq

/-- compress_images (lines 5-96 of compress_photos.py): the output
folder is created first (line 21); the listdir outcome is then
examined, with only FileNotFoundError caught (lines 27-31); the
surviving entries are filtered by suffix (line 28); an empty match set
returns early (lines 33-35); otherwise the per-file loop runs and the
summary is computed (lines 44-95). -/
def compress_images (cfg : Config) (ld : ListDirResult) (o : String → FileOracle) : BatchRun :=
  { outDirCreated := true
    outcome :=
      match ld with
      | .otherError e => .raisedAtListing e
      | .fileNotFound => .folderNotFoundMessage
      | .ok entries =>
        let files := entries.filter matchesExt
        if files.isEmpty then .noFilesMessage
        else
          let B := runBatchFold cfg files o
          .ran B.report B.totals B.dir (overallReduction B.totals) }

/-- The default configuration of compress_images: max_width 2000,
quality 85. -/
def cfgDefault : Config := ⟨2000, 85⟩

/-- A small opaque RGB test image, 100 by 100. -/
def imgRGBsmall : Img := imageNew "RGB" 100 100 ⟨1, 2, 3, 255⟩

/-- A wide opaque RGB test image, 3000 by 2000. -/
def imgWide : Img := imageNew "RGB" 3000 2000 ⟨0, 0, 0, 255⟩

/-- An extreme-aspect RGB test image, 3000 by 1. -/
def imgThin : Img := imageNew "RGB" 3000 1 ⟨5, 5, 5, 255⟩

/-- An RGBA test image with partial transparency. -/
def imgRGBA : Img := imageNew "RGBA" 2 2 ⟨10, 20, 30, 51⟩

/-- A palette test image whose single palette entry is a partially
transparent colour. -/
def imgP : Img := ⟨"P", 1, 1, fun _ _ => ⟨3, 0, 0, 0⟩, fun _ => ⟨100, 150, 200, 51⟩⟩

/-- A luminance-alpha test image with a mostly transparent pixel. -/
def imgLA : Img := imageNew "LA" 1 1 ⟨7, 0, 0, 13⟩

/-- A CMYK test image, a mode outside the three converted ones. -/
def imgCMYK : Img := imageNew "CMYK" 1 1 ⟨9, 9, 9, 9⟩

/-- An oracle for a file whose every stage succeeds: 100 bytes in, 40
bytes out. -/
def oracleOkA : FileOracle :=
  ⟨Except.ok imgRGBsmall, Except.ok 100, fun _ _ => Except.ok (), Except.ok (), Except.ok 40⟩

/-- An oracle for a file that decodes and is sized (50 bytes) but
whose img.save call raises. -/
def oracleSaveFail : FileOracle :=
  ⟨Except.ok imgRGBsmall, Except.ok 50, fun _ _ => Except.ok (), Except.error "disk full", Except.ok 0⟩

/-- An oracle for a file whose Image.open call raises. -/
def oracleDecodeFail : FileOracle :=
  ⟨Except.error "cannot identify image file", Except.ok 0, fun _ _ => Except.ok (), Except.ok (), Except.ok 0⟩

/-- An oracle for a 0-byte original whose other stages all succeed. -/
def zeroSizeOracle : FileOracle :=
  ⟨Except.ok imgRGBsmall, Except.ok 0, fun _ _ => Except.ok (), Except.ok (), Except.ok 64⟩

/-- An oracle for the 3000 by 1 image, with a resize library that
rejects a zero target height. -/
def thinOracle : FileOracle :=
  ⟨Except.ok imgThin, Except.ok 500,
    fun _ h => if h = 0 then Except.error "height must be > 0" else Except.ok (),
    Except.ok (), Except.ok 100⟩

/-- A two-file environment: one fully successful file and one file
failing at save. -/
def twoFileOracle : String → FileOracle :=
  fun f => if f = "a.jpg" then oracleOkA else oracleSaveFail

/-- An environment in which every file succeeds. -/
def allOkOracle : String → FileOracle := fun _ => oracleOkA

/-- A two-file environment: one undecodable file followed by one fully
successful file. -/
def mixedOracle : String → FileOracle :=
  fun f => if f = "bad.jpg" then oracleDecodeFail else oracleOkA

/-- The paste target keeps the background width. -/
lemma pasteStep_width (bg src : Img) : (pasteStep bg src).width = bg.width := by
  unfold pasteStep pasteMasked pasteUnmasked
  split <;> rfl

/-- The paste target keeps the background height. -/
lemma pasteStep_height (bg src : Img) : (pasteStep bg src).height = bg.height := by
  unfold pasteStep pasteMasked pasteUnmasked
  split <;> rfl

/-- Color normalization never changes the pixel width. -/
lemma normalize_width (img : Img) : (normalize img).width = img.width := by
  unfold normalize
  split
  · rw [pasteStep_width]
    rfl
  · rfl

/-- Color normalization never changes the pixel height. -/
lemma normalize_height (img : Img) : (normalize img).height = img.height := by
  unfold normalize
  split
  · rw [pasteStep_height]
    rfl
  · rfl

/-- A narrow-enough image skips the resize branch entirely. -/
lemma resizeStep_of_le (W : Nat) (img : Img) (h : img.width ≤ W) :
    resizeStep W img = (img, none) := by
  unfold resizeStep
  rw [if_neg (not_lt.mpr h)]

/-- A too-wide image issues the LANCZOS resize request computed at
lines 65-67. -/
lemma resizeStep_snd_of_lt (W : Nat) (img : Img) (h : W < img.width) :
    (resizeStep W img).2 = some ⟨W, img.height * W / img.width, Resampling.lanczos⟩ := by
  unfold resizeStep
  rw [if_pos h]

/-- Truncating Nat division agrees with the floor of the exact
rational product height * (W / width). -/
lemma natDiv_eq_floor (h W w : Nat) :
    h * W / w = ⌊(h : ℚ) * ((W : ℚ) / (w : ℚ))⌋₊ := by
  have hrw : (h : ℚ) * ((W : ℚ) / (w : ℚ)) = ((h * W : ℕ) : ℚ) / (w : ℚ) := by
    push_cast
    ring
  rw [hrw, Nat.floor_div_nat, Nat.floor_natCast]

/-- Claim C5, counterexample: the filename photo.Jpg has extension jpg
up to case, so the claim says it is enumerated, but the suffix test of
line 28 compares against the six exact-case suffixes and skips it. -/
theorem mixed_case_extension_skipped :
    specCaseInsensitive "photo.Jpg" = true ∧ matchesExt "photo.Jpg" = false := by
  constructor <;> decide

/-- Claim C5, amended: the Enumerator selects exactly the files whose
name ends with the all-lowercase or the all-uppercase form of one of
jpg, jpeg, png; mixed-case extensions are not selected. -/
theorem enumerator_exact_suffixes (f : String) : matchesExt f = sixSuffix f := by
  have d1 : ("." ++ ("jpg" : String)) = ".jpg" := by decide
  have d2 : ("." ++ ("jpeg" : String)) = ".jpeg" := by decide
  have d3 : ("." ++ ("png" : String)) = ".png" := by decide
  have e1 : ("." ++ strUpper ("jpg" : String)) = ".JPG" := by decide
  have e2 : ("." ++ strUpper ("jpeg" : String)) = ".JPEG" := by decide
  have e3 : ("." ++ strUpper ("png" : String)) = ".PNG" := by decide
  simp only [matchesExt, sixSuffix, image_extensions, List.any_cons, List.any_nil,
    d1, d2, d3, e1, e2, e3]
  cases strEndsWith f ".jpg" <;> cases strEndsWith f ".jpeg" <;> cases strEndsWith f ".png" <;>
    cases strEndsWith f ".JPG" <;> cases strEndsWith f ".JPEG" <;>
      cases strEndsWith f ".PNG" <;> rfl

/-- Claim C6: for max width W, an image no wider than W passes through
the resize stage identical to its input; a wider image gets a LANCZOS
resize request whose width is exactly W and whose height is the
truncation (not rounding) of height times the ratio W / width, which
agrees with the floor of the exact rational product. -/
theorem resizer_spec (W : Nat) (img : Img) (hW : 0 < W) :
    (img.width ≤ W → resizeStep W img = (img, none)) ∧
    (W < img.width →
      (resizeStep W img).2 = some ⟨W, img.height * W / img.width, Resampling.lanczos⟩ ∧
      (resizeStep W img).1.width = W ∧
      (resizeStep W img).1.height = img.height * W / img.width ∧
      img.height * W / img.width = ⌊(img.height : ℚ) * ((W : ℚ) / (img.width : ℚ))⌋₊) := by
  constructor
  · intro h
    exact resizeStep_of_le W img h
  · intro h
    refine ⟨resizeStep_snd_of_lt W img h, ?_, ?_, natDiv_eq_floor img.height W img.width⟩
    · unfold resizeStep
      rw [if_pos h]
    · unfold resizeStep
      rw [if_pos h]

/-- Claim C6, witness: with W = 2000 a 3000 by 2000 image is asked to
become 2000 by 1333 under LANCZOS, and a 100 by 100 image passes
through unchanged. -/
theorem resizer_spec_witness :
    0 < 2000 ∧
    (resizeStep 2000 imgWide).2 = some ⟨2000, 1333, Resampling.lanczos⟩ ∧
    resizeStep 2000 imgRGBsmall = (imgRGBsmall, none) := by
  refine ⟨by decide, ?_, ?_⟩
  · have h := ((resizer_spec 2000 imgWide (by decide)).2 (by decide)).1
    exact h.trans (by decide)
  · exact (resizer_spec 2000 imgRGBsmall (by decide)).1 (by decide)

/-- Claim C7: an RGBA image is composited over a white canvas of the
same dimensions with its alpha channel as blend mask; a palette image
is first expanded through its palette to RGBA and then composited the
same way; a luminance-alpha image is pasted over the same white canvas
without the alpha mask, its transparency discarded; every other mode
passes through unchanged.  Each converted result is opaque standard
RGB, and the stage is a total function (it never errors). -/
theorem color_normalizer_spec (img : Img) :
    (img.mode = "RGBA" →
      (normalize img).mode = "RGB" ∧
      (normalize img).width = img.width ∧
      (normalize img).height = img.height ∧
      ∀ x y, (normalize img).px x y =
        ⟨blend (img.px x y).r 255 (img.px x y).a,
         blend (img.px x y).g 255 (img.px x y).a,
         blend (img.px x y).b 255 (img.px x y).a, 255⟩) ∧
    (img.mode = "P" →
      (normalize img).mode = "RGB" ∧
      (normalize img).width = img.width ∧
      (normalize img).height = img.height ∧
      ∀ x y, (normalize img).px x y =
        ⟨blend (img.palette (img.px x y).r).r 255 (img.palette (img.px x y).r).a,
         blend (img.palette (img.px x y).r).g 255 (img.palette (img.px x y).r).a,
         blend (img.palette (img.px x y).r).b 255 (img.palette (img.px x y).r).a, 255⟩) ∧
    (img.mode = "LA" →
      (normalize img).mode = "RGB" ∧
      (normalize img).width = img.width ∧
      (normalize img).height = img.height ∧
      ∀ x y, (normalize img).px x y =
        ⟨(img.px x y).r, (img.px x y).r, (img.px x y).r, 255⟩) ∧
    (img.mode ≠ "RGBA" → img.mode ≠ "LA" → img.mode ≠ "P" → normalize img = img) := by
  refine ⟨?_, ?_, ?_, ?_⟩
  · intro hm
    have hP : img.mode ≠ "P" := by
      rw [hm]
      decide
    unfold normalize
    rw [if_pos (Or.inl hm), if_neg hP]
    unfold pasteStep
    rw [if_pos hm]
    exact ⟨rfl, rfl, rfl, fun x y => rfl⟩
  · intro hm
    unfold normalize
    rw [if_pos (Or.inr (Or.inr hm)), if_pos hm]
    unfold pasteStep
    rw [if_pos (show (convertRGBA img).mode = "RGBA" from rfl)]
    exact ⟨rfl, rfl, rfl, fun x y => rfl⟩
  · intro hm
    have hP : img.mode ≠ "P" := by
      rw [hm]
      decide
    have hA : img.mode ≠ "RGBA" := by
      rw [hm]
      decide
    unfold normalize
    rw [if_pos (Or.inr (Or.inl hm)), if_neg hP]
    unfold pasteStep
    rw [if_neg hA]
    refine ⟨rfl, rfl, rfl, fun x y => ?_⟩
    show toRGBPixel img.mode (img.px x y) = _
    simp [toRGBPixel, hm]
  · intro h1 h2 h3
    unfold normalize
    exact if_neg (fun hc => hc.elim h1 (fun hc2 => hc2.elim h2 h3))

/-- Claim C7, witness: concrete pixels of each branch, with the
partially transparent RGBA and palette pixels blended toward white,
the luminance-alpha pixel expanded with its alpha ignored, and a CMYK
image passed through unchanged. -/
theorem color_normalizer_spec_witness :
    (normalize imgRGBA).px 0 0 = ⟨206, 208, 210, 255⟩ ∧
    (normalize imgP).px 0 0 = ⟨224, 234, 244, 255⟩ ∧
    (normalize imgLA).px 0 0 = ⟨7, 7, 7, 255⟩ ∧
    normalize imgCMYK = imgCMYK := by
  refine ⟨?_, ?_, ?_, ?_⟩
  · have h := ((color_normalizer_spec imgRGBA).1 rfl).2.2.2 0 0
    rw [h]
    decide
  · have h := ((color_normalizer_spec imgP).2.1 rfl).2.2.2 0 0
    rw [h]
    decide
  · have h := ((color_normalizer_spec imgLA).2.2.1 rfl).2.2.2 0 0
    rw [h]
    decide
  · exact (color_normalizer_spec imgCMYK).2.2.2 (by decide) (by decide) (by decide)

/-- The amount a file adds to total_original_size is its original size
exactly when decode and input getsize succeed, regardless of later
failures. -/
lemma addedOriginal_getD (cfg : Config) (o : FileOracle) :
    (processFile cfg o).addedOriginal.getD 0 = origContrib cfg o := by
  cases hd : o.decode with
  | error e => simp [processFile, origContrib, hd]
  | ok img =>
    cases hs : o.originalSize with
    | error e => simp [processFile, origContrib, hd, hs]
    | ok n =>
      cases hr : resizeOutcome cfg o img with
      | error e => simp [processFile, origContrib, hd, hs, hr]
      | ok u =>
        cases hsv : o.save with
        | error e => simp [processFile, origContrib, hd, hs, hr, hsv]
        | ok v =>
          cases hc : o.compressedSize with
          | error e => simp [processFile, origContrib, hd, hs, hr, hsv, hc]
          | ok k =>
            by_cases h0 : n = 0 <;>
              simp [processFile, origContrib, hd, hs, hr, hsv, hc, h0]

/-- The amount a file adds to total_compressed_size is its output size
exactly when every stage through the output getsize succeeds. -/
lemma addedCompressed_getD (cfg : Config) (o : FileOracle) :
    (processFile cfg o).addedCompressed.getD 0 = compContrib cfg o := by
  cases hd : o.decode with
  | error e => simp [processFile, compContrib, hd]
  | ok img =>
    cases hs : o.originalSize with
    | error e => simp [processFile, compContrib, hd, hs]
    | ok n =>
      cases hr : resizeOutcome cfg o img with
      | error e => simp [processFile, compContrib, hd, hs, hr]
      | ok u =>
        cases hsv : o.save with
        | error e => simp [processFile, compContrib, hd, hs, hr, hsv]
        | ok v =>
          cases hc : o.compressedSize with
          | error e => simp [processFile, compContrib, hd, hs, hr, hsv, hc]
          | ok k =>
            by_cases h0 : n = 0 <;>
              simp [processFile, compContrib, hd, hs, hr, hsv, hc, h0]

/-- A successful outcome implies the output file was written. -/
lemma success_wrote (cfg : Config) (o : FileOracle) :
    ((processFile cfg o).result).isSuccess = true → (processFile cfg o).wrote = true := by
  cases hd : o.decode with
  | error e => simp [processFile, FileResult.isSuccess, hd]
  | ok img =>
    cases hs : o.originalSize with
    | error e => simp [processFile, FileResult.isSuccess, hd, hs]
    | ok n =>
      cases hr : resizeOutcome cfg o img with
      | error e => simp [processFile, FileResult.isSuccess, hd, hs, hr]
      | ok u =>
        cases hsv : o.save with
        | error e => simp [processFile, FileResult.isSuccess, hd, hs, hr, hsv]
        | ok v =>
          cases hc : o.compressedSize with
          | error e => simp [processFile, FileResult.isSuccess, hd, hs, hr, hsv, hc]
          | ok k =>
            by_cases h0 : n = 0 <;>
              simp [processFile, FileResult.isSuccess, hd, hs, hr, hsv, hc, h0]

/-- The report accumulated by the loop is one entry per file, in
order. -/
lemma foldl_report (cfg : Config) (o : String → FileOracle) :
    ∀ (files : List String) (acc : BatchAcc),
      (files.foldl (batchStep cfg o) acc).report
        = acc.report ++ files.map (fun f => (f, processFile cfg (o f))) := by
  intro files
  induction files with
  | nil => intro acc; simp
  | cons f fs ih =>
    intro acc
    rw [List.foldl_cons, List.map_cons, ih]
    simp [batchStep]

/-- The original-size total accumulated by the loop is the sum of the
per-file contributions. -/
lemma foldl_original (cfg : Config) (o : String → FileOracle) :
    ∀ (files : List String) (acc : BatchAcc),
      ((files.foldl (batchStep cfg o) acc).totals).original
        = acc.totals.original + (files.map (fun f => origContrib cfg (o f))).sum := by
  intro files
  induction files with
  | nil => intro acc; simp
  | cons f fs ih =>
    intro acc
    rw [List.foldl_cons, List.map_cons, List.sum_cons, ih]
    simp [batchStep, addedOriginal_getD, Nat.add_assoc]

/-- The compressed-size total accumulated by the loop is the sum of
the per-file contributions. -/
lemma foldl_compressed (cfg : Config) (o : String → FileOracle) :
    ∀ (files : List String) (acc : BatchAcc),
      ((files.foldl (batchStep cfg o) acc).totals).compressed
        = acc.totals.compressed + (files.map (fun f => compContrib cfg (o f))).sum := by
  intro files
  induction files with
  | nil => intro acc; simp
  | cons f fs ih =>
    intro acc
    rw [List.foldl_cons, List.map_cons, List.sum_cons, ih]
    simp [batchStep, addedCompressed_getD, Nat.add_assoc]

/-- The output directory accumulated by the loop is the write log
applied to the starting directory. -/
lemma foldl_dir (cfg : Config) (o : String → FileOracle) :
    ∀ (files : List String) (acc : BatchAcc),
      (files.foldl (batchStep cfg o) acc).dir
        = (writeLog cfg files o).foldl (fun d nc => fsWrite d nc.1 nc.2) acc.dir := by
  intro files
  induction files with
  | nil => intro acc; simp [writeLog]
  | cons f fs ih =>
    intro acc
    by_cases hw : (processFile cfg (o f)).wrote = true
    · have hlog : writeLog cfg (f :: fs) o = (outputFilename f, f) :: writeLog cfg fs o := by
        simp [writeLog, List.filter_cons, hw]
      rw [List.foldl_cons, ih, hlog, List.foldl_cons,
        show (batchStep cfg o acc f).dir = fsWrite acc.dir (outputFilename f) f from by
          simp [batchStep, hw]]
    · have hlog : writeLog cfg (f :: fs) o = writeLog cfg fs o := by
        simp [writeLog, List.filter_cons, hw]
      rw [List.foldl_cons, ih, hlog,
        show (batchStep cfg o acc f).dir = acc.dir from by simp [batchStep, hw]]

/-- Specialization of the report lemma to the whole batch. -/
lemma runBatch_report (cfg : Config) (files : List String) (o : String → FileOracle) :
    (runBatchFold cfg files o).report = files.map (fun f => (f, processFile cfg (o f))) := by
  unfold runBatchFold
  rw [foldl_report]
  rfl

/-- Specialization of the original-total lemma to the whole batch. -/
lemma runBatch_original (cfg : Config) (files : List String) (o : String → FileOracle) :
    (runBatchFold cfg files o).totals.original
      = (files.map (fun f => origContrib cfg (o f))).sum := by
  unfold runBatchFold
  rw [foldl_original]
  exact Nat.zero_add _

/-- Specialization of the compressed-total lemma to the whole batch. -/
lemma runBatch_compressed (cfg : Config) (files : List String) (o : String → FileOracle) :
    (runBatchFold cfg files o).totals.compressed
      = (files.map (fun f => compContrib cfg (o f))).sum := by
  unfold runBatchFold
  rw [foldl_compressed]
  exact Nat.zero_add _

/-- Specialization of the directory lemma to the whole batch. -/
lemma runBatch_dir (cfg : Config) (files : List String) (o : String → FileOracle) :
    (runBatchFold cfg files o).dir
      = (writeLog cfg files o).foldl (fun d nc => fsWrite d nc.1 nc.2) [] := by
  unfold runBatchFold
  rw [foldl_dir]

/-- Looking up the key just written finds the new content. -/
lemma dirLookup_fsWrite_self (n c : String) :
    ∀ d, dirLookup (fsWrite d n c) n = some c := by
  intro d
  induction d with
  | nil => simp [fsWrite, dirLookup]
  | cons e rest ih =>
    by_cases h : e.1 = n
    · simp [fsWrite, dirLookup, h]
    · simp [fsWrite, dirLookup, h, ih]

/-- Writing one key leaves lookups of other keys unchanged. -/
lemma dirLookup_fsWrite_ne (n c m : String) (h : n ≠ m) :
    ∀ d, dirLookup (fsWrite d n c) m = dirLookup d m := by
  intro d
  induction d with
  | nil => simp [fsWrite, dirLookup, h]
  | cons e rest ih =>
    by_cases he : e.1 = n
    · simp [fsWrite, dirLookup, he, h]
    · simp [fsWrite, dirLookup, he, ih]

/-- After a write sequence, a lookup returns the content of the last
write with that key, or falls back to the starting directory. -/
lemma dirLookup_foldl (ws : List (String × String)) :
    ∀ (d : List (String × String)) (n : String),
      dirLookup (ws.foldl (fun d nc => fsWrite d nc.1 nc.2) d) n
        = match lastAssign ws n with
          | some c => some c
          | none => dirLookup d n := by
  induction ws with
  | nil => intro d n; rfl
  | cons e rest ih =>
    intro d n
    rw [List.foldl_cons, ih]
    cases h : lastAssign rest n with
    | some c => simp [lastAssign, h]
    | none =>
      simp only [lastAssign, h]
      by_cases hmn : e.1 = n
      · subst hmn
        simp [dirLookup_fsWrite_self]
      · simp [hmn, dirLookup_fsWrite_ne e.1 e.2 n hmn]

/-- Writing one key leaves the entry counts of other keys unchanged. -/
lemma countKey_fsWrite_ne (n c m : String) (h : n ≠ m) :
    ∀ d, countKey (fsWrite d n c) m = countKey d m := by
  intro d
  induction d with
  | nil => simp [fsWrite, countKey, h]
  | cons e rest ih =>
    by_cases he : e.1 = n
    · simp [fsWrite, countKey, he, h]
    · simp [fsWrite, countKey, he, ih]

/-- A write preserves the at-most-one-entry bound for its own key. -/
lemma countKey_fsWrite_self (n c : String) :
    ∀ d, countKey d n ≤ 1 → countKey (fsWrite d n c) n ≤ 1 := by
  intro d
  induction d with
  | nil =>
    intro h
    simp [fsWrite, countKey]
  | cons e rest ih =>
    intro h
    by_cases he : e.1 = n
    · simp [fsWrite, countKey, he] at h ⊢
      exact h
    · simp [fsWrite, countKey, he] at h ⊢
      exact ih h

/-- A write sequence starting from a duplicate-free directory keeps
every key count at most one. -/
lemma countKey_foldl_le (ws : List (String × String)) :
    ∀ d, (∀ m, countKey d m ≤ 1) →
      ∀ m, countKey (ws.foldl (fun d nc => fsWrite d nc.1 nc.2) d) m ≤ 1 := by
  induction ws with
  | nil => intro d h m; exact h m
  | cons e rest ih =>
    intro d h m
    rw [List.foldl_cons]
    refine ih (fsWrite d e.1 e.2) ?_ m
    intro k
    by_cases hk : e.1 = k
    · subst hk
      exact countKey_fsWrite_self e.1 e.2 d (h e.1)
    · rw [countKey_fsWrite_ne e.1 e.2 k hk]
      exact h k

/-- A key occurring in a write sequence has a last assignment. -/
lemma lastAssign_isSome_of_mem (ws : List (String × String)) (n c : String)
    (h : (n, c) ∈ ws) : (lastAssign ws n).isSome = true := by
  induction ws with
  | nil => cases h
  | cons e rest ih =>
    cases h with
    | head =>
      cases hla : lastAssign rest n with
      | some c2 => simp [lastAssign, hla]
      | none => simp [lastAssign, hla]
    | tail _ hmem =>
      have hx := ih hmem
      cases hla : lastAssign rest n with
      | some c2 => simp [lastAssign, hla]
      | none => simp [hla] at hx

/-- Claim C1, counterexample: in a batch of two files where the second
fails at img.save, the accumulated original total is 150 although the
only successful file has original size 100, so the totals are not the
sums over the successful subset. -/
theorem totals_not_success_only :
    (runBatchFold cfgDefault ["a.jpg", "b.jpg"] twoFileOracle).totals.original = 150 ∧
    sumOrigSuccess (runBatchFold cfgDefault ["a.jpg", "b.jpg"] twoFileOracle).report = 100 ∧
    successCount (runBatchFold cfgDefault ["a.jpg", "b.jpg"] twoFileOracle).report = 1 ∧
    ((processFile cfgDefault (twoFileOracle "b.jpg")).result).isSuccess = false := by
  refine ⟨?_, ?_, ?_, ?_⟩ <;> decide

/-- Claim C1, amended: the original-size total sums every file whose
open and input getsize succeeded (even files that later fail), the
compressed-size total sums every file whose pipeline reached the
output getsize (even files whose reduction computation then fails),
and the printed total saved is the difference of these two totals. -/
theorem totals_characterization (cfg : Config) (files : List String) (o : String → FileOracle) :
    (runBatchFold cfg files o).totals.original
        = (files.map (fun f => origContrib cfg (o f))).sum ∧
    (runBatchFold cfg files o).totals.compressed
        = (files.map (fun f => compContrib cfg (o f))).sum ∧
    totalSaved (runBatchFold cfg files o).totals
        = ((files.map (fun f => origContrib cfg (o f))).sum : Int)
          - ((files.map (fun f => compContrib cfg (o f))).sum : Int) := by
  refine ⟨runBatch_original cfg files o, runBatch_compressed cfg files o, ?_⟩
  unfold totalSaved
  rw [runBatch_original, runBatch_compressed]

/-- Claim C2, counterexample: when os.listdir raises a
PermissionError (the directory exists but is not listable), the
exception is not caught, no error message is printed by the program
and the run is fatal, contrary to the claim. -/
theorem unlistable_dir_uncaught :
    ((compress_images cfgDefault (ListDirResult.otherError "PermissionError")
        allOkOracle).outcome).printsFolderError = false ∧
    ((compress_images cfgDefault (ListDirResult.otherError "PermissionError")
        allOkOracle).outcome).nonFatal = false := by
  constructor <;> decide

/-- Claim C2, amended: a missing input directory (FileNotFoundError)
produces the error message, an empty report, no written output files
and a non-fatal return, while the output directory itself was already
created by the preceding makedirs call; any other listing failure
(such as a PermissionError) propagates as an uncaught exception. -/
theorem missing_dir_behaviour (cfg : Config) (o : String → FileOracle) :
    (compress_images cfg ListDirResult.fileNotFound o).outcome
        = BatchOutcome.folderNotFoundMessage ∧
    ((compress_images cfg ListDirResult.fileNotFound o).outcome).printsFolderError = true ∧
    ((compress_images cfg ListDirResult.fileNotFound o).outcome).nonFatal = true ∧
    ((compress_images cfg ListDirResult.fileNotFound o).outcome).reportOf = [] ∧
    ((compress_images cfg ListDirResult.fileNotFound o).outcome).dirOf = [] ∧
    (compress_images cfg ListDirResult.fileNotFound o).outDirCreated = true ∧
    (∀ e, (compress_images cfg (ListDirResult.otherError e) o).outcome
        = BatchOutcome.raisedAtListing e) ∧
    (∀ e, ((compress_images cfg (ListDirResult.otherError e) o).outcome).nonFatal = false) :=
  ⟨rfl, rfl, rfl, rfl, rfl, rfl, fun _ => rfl, fun _ => rfl⟩

/-- Claim C3, counterexample: a file recorded with original size 0
whose other stages succeed raises the division at line 80 and is
recorded as an Error result, contrary to the claim that no division
error is raised and the file does not become an Error result. -/
theorem zero_size_division_raises :
    (processFile cfgDefault zeroSizeOracle).result = FileResult.error "division by zero" ∧
    ((processFile cfgDefault zeroSizeOracle).result).isSuccess = false := by
  constructor <;> decide

/-- Claim C3, amended: for a file with original size 0 whose other
stages succeed, the reduction computation raises ZeroDivisionError;
the per-file handler catches it, the file is recorded as an Error
result, and both size totals were already incremented for it. -/
theorem zero_size_reduction_error (cfg : Config) (o : FileOracle) (img : Img) (k : Nat)
    (hdec : o.decode = Except.ok img)
    (hsz : o.originalSize = Except.ok 0)
    (hres : resizeOutcome cfg o img = Except.ok ())
    (hsave : o.save = Except.ok ())
    (hcomp : o.compressedSize = Except.ok k) :
    (processFile cfg o).result = FileResult.error "division by zero" ∧
    (processFile cfg o).addedOriginal = some 0 ∧
    (processFile cfg o).addedCompressed = some k := by
  refine ⟨?_, ?_, ?_⟩ <;> simp [processFile, hdec, hsz, hres, hsave, hcomp]

/-- Claim C3, witness for the amended theorem at a concrete oracle. -/
theorem zero_size_reduction_error_witness :
    (processFile cfgDefault zeroSizeOracle).result = FileResult.error "division by zero" ∧
    (processFile cfgDefault zeroSizeOracle).addedOriginal = some 0 ∧
    (processFile cfgDefault zeroSizeOracle).addedCompressed = some 64 :=
  zero_size_reduction_error cfgDefault zeroSizeOracle imgRGBsmall 64 rfl rfl rfl rfl rfl

/-- Claim C4, counterexample: a batch whose single file fails at
decode has zero successful files and an accumulated original total of
0, so the summary division at line 95 raises ZeroDivisionError and the
run is fatal, contrary to the claim that the summary is always emitted
without a division error. -/
theorem summary_zero_division_crash :
    successCount (runBatchFold cfgDefault ["broken.jpg"]
        (fun _ => oracleDecodeFail)).report = 0 ∧
    overallReduction (runBatchFold cfgDefault ["broken.jpg"]
        (fun _ => oracleDecodeFail)).totals = none ∧
    ((compress_images cfgDefault (ListDirResult.ok ["broken.jpg"])
        (fun _ => oracleDecodeFail)).outcome).nonFatal = false := by
  refine ⟨?_, ?_, ?_⟩ <;> decide

/-- Claim C4, amended: the summary division raises ZeroDivisionError
exactly when the accumulated original total is zero, that is, when no
file of the batch reached the size-accounting point; with zero
successes but a nonzero accumulated original the summary is still
emitted. -/
theorem summary_raises_iff_no_original (cfg : Config) (files : List String)
    (o : String → FileOracle) :
    overallReduction (runBatchFold cfg files o).totals = none ↔
      (files.map (fun f => origContrib cfg (o f))).sum = 0 := by
  have h := runBatch_original cfg files o
  unfold overallReduction
  rw [h]
  by_cases hs : (files.map (fun f => origContrib cfg (o f))).sum = 0
  · simp [hs]
  · simp [hs]

/-- Claim C8: every output is written under the splitext stem with the
extension forced to .jpg; a successful file was written; a lookup in
the final output directory returns the content of the last write with
that name, so a later file silently overwrites an earlier one mapping
to the same name; every written name is present; and the directory
holds at most one entry per name. -/
theorem encoder_naming_overwrite (cfg : Config) (files : List String)
    (o : String → FileOracle) :
    (∀ f, outputFilename f = splitextStem f ++ ".jpg") ∧
    (∀ f, ((processFile cfg (o f)).result).isSuccess = true →
      (processFile cfg (o f)).wrote = true) ∧
    (∀ n, dirLookup (runBatchFold cfg files o).dir n
        = lastAssign (writeLog cfg files o) n) ∧
    (∀ f, f ∈ files → (processFile cfg (o f)).wrote = true →
      (dirLookup (runBatchFold cfg files o).dir (outputFilename f)).isSome = true) ∧
    (∀ n, countKey (runBatchFold cfg files o).dir n ≤ 1) := by
  have hdir := runBatch_dir cfg files o
  refine ⟨fun f => rfl, fun f => success_wrote cfg (o f), ?_, ?_, ?_⟩
  · intro n
    rw [hdir, dirLookup_foldl]
    cases h : lastAssign (writeLog cfg files o) n <;> simp [h, dirLookup]
  · intro f hf hw
    rw [hdir, dirLookup_foldl]
    have hmem : (outputFilename f, f) ∈ writeLog cfg files o := by
      unfold writeLog
      exact List.mem_map_of_mem _ (List.mem_filter.mpr ⟨hf, hw⟩)
    have hsome := lastAssign_isSome_of_mem _ _ _ hmem
    cases h : lastAssign (writeLog cfg files o) (outputFilename f) with
    | some c => simp [h]
    | none => simp [h] at hsome
  · intro n
    rw [hdir]
    exact countKey_foldl_le _ [] (fun m => Nat.zero_le 1) n

/-- Claim C8, witness: photo.png and photo.jpg both map to the output
name photo.jpg; after the batch the single surviving entry holds the
content of the second file, and the directory has at most one entry
for that name. -/
theorem encoder_naming_overwrite_witness :
    outputFilename "photo.png" = "photo.jpg" ∧
    ("photo.png" ∈ (["photo.png", "photo.jpg"] : List String)) ∧
    (dirLookup (runBatchFold cfgDefault ["photo.png", "photo.jpg"] allOkOracle).dir
      (outputFilename "photo.png")).isSome = true ∧
    dirLookup (runBatchFold cfgDefault ["photo.png", "photo.jpg"] allOkOracle).dir
      "photo.jpg" = some "photo.jpg" ∧
    countKey (runBatchFold cfgDefault ["photo.png", "photo.jpg"] allOkOracle).dir
      "photo.jpg" ≤ 1 := by
  have h := encoder_naming_overwrite cfgDefault ["photo.png", "photo.jpg"] allOkOracle
  refine ⟨(h.1 "photo.png").trans (by decide), by decide,
    h.2.2.2.1 "photo.png" (by decide) (by decide), ?_, h.2.2.2.2 "photo.jpg"⟩
  rw [h.2.2.1]
  decide

/-- Claim C9: the batch report has exactly one entry per enumerated
file, in enumeration order, independent of any failures; and a failure
raised at any stage of one file (decode, input getsize, resize, save,
output getsize) is recorded as an Error result carrying the raised
message. -/
theorem error_isolation (cfg : Config) (files : List String) (o : String → FileOracle) :
    ((runBatchFold cfg files o).report
        = files.map (fun f => (f, processFile cfg (o f)))) ∧
    (∀ oc : FileOracle, ∀ e, oc.decode = Except.error e →
      (processFile cfg oc).result = FileResult.error e) ∧
    (∀ oc : FileOracle, ∀ img e, oc.decode = Except.ok img →
      oc.originalSize = Except.error e →
      (processFile cfg oc).result = FileResult.error e) ∧
    (∀ oc : FileOracle, ∀ img n e, oc.decode = Except.ok img →
      oc.originalSize = Except.ok n → resizeOutcome cfg oc img = Except.error e →
      (processFile cfg oc).result = FileResult.error e) ∧
    (∀ oc : FileOracle, ∀ img n e, oc.decode = Except.ok img →
      oc.originalSize = Except.ok n → resizeOutcome cfg oc img = Except.ok () →
      oc.save = Except.error e →
      (processFile cfg oc).result = FileResult.error e) ∧
    (∀ oc : FileOracle, ∀ img n e, oc.decode = Except.ok img →
      oc.originalSize = Except.ok n → resizeOutcome cfg oc img = Except.ok () →
      oc.save = Except.ok () → oc.compressedSize = Except.error e →
      (processFile cfg oc).result = FileResult.error e) := by
  refine ⟨runBatch_report cfg files o, ?_, ?_, ?_, ?_, ?_⟩
  · intro oc e h
    simp [processFile, h]
  · intro oc img e h1 h2
    simp [processFile, h1, h2]
  · intro oc img n e h1 h2 h3
    simp [processFile, h1, h2, h3]
  · intro oc img n e h1 h2 h3 h4
    simp [processFile, h1, h2, h3, h4]
  · intro oc img n e h1 h2 h3 h4 h5
    simp [processFile, h1, h2, h3, h4, h5]

/-- Claim C9, witness: a two-file batch whose first file is
undecodable still reports both files in order, and the failing file
carries the raised message. -/
theorem error_isolation_witness :
    ((runBatchFold cfgDefault ["bad.jpg", "good.jpg"] mixedOracle).report
        = (["bad.jpg", "good.jpg"] : List String).map
            (fun f => (f, processFile cfgDefault (mixedOracle f)))) ∧
    (processFile cfgDefault oracleDecodeFail).result
        = FileResult.error "cannot identify image file" := by
  have h := error_isolation cfgDefault ["bad.jpg", "good.jpg"] mixedOracle
  exact ⟨h.1, h.2.1 oracleDecodeFail "cannot identify image file" rfl⟩

/-- Claim C10: when the image is wider than max width W but height
times W is still smaller than the width, the computed target height is
0, the resize is requested at height 0 with no lower-bound guard, and
with a resize library that rejects zero heights the file takes the
per-file error path and nothing is written for it. -/
theorem zero_height_resize (cfg : Config) (o : FileOracle) (img : Img) (n : Nat) (e : String)
    (hdec : o.decode = Except.ok img)
    (hsz : o.originalSize = Except.ok n)
    (hwide : cfg.maxWidth < img.width)
    (hthin : img.height * cfg.maxWidth < img.width)
    (hreject : o.resizeCall cfg.maxWidth 0 = Except.error e) :
    (processFile cfg o).resizeRequested = some ⟨cfg.maxWidth, 0, Resampling.lanczos⟩ ∧
    (processFile cfg o).result = FileResult.error e ∧
    (processFile cfg o).wrote = false := by
  have hzero : img.height * cfg.maxWidth / img.width = 0 := Nat.div_eq_of_lt hthin
  have hw2 : cfg.maxWidth < (normalize img).width := by
    rw [normalize_width]
    exact hwide
  have hreq : (resizeStep cfg.maxWidth (normalize img)).2
      = some ⟨cfg.maxWidth, 0, Resampling.lanczos⟩ := by
    rw [resizeStep_snd_of_lt _ _ hw2, normalize_height, normalize_width, hzero]
  have hro : resizeOutcome cfg o img = Except.error e := by
    unfold resizeOutcome
    rw [hreq]
    exact hreject
  refine ⟨?_, ?_, ?_⟩ <;> simp [processFile, hdec, hsz, hro, hreq]

/-- Claim C10, witness: the 3000 by 1 image with W = 2000 requests a
resize to 2000 by 0 and ends as an error. -/
theorem zero_height_resize_witness :
    (processFile cfgDefault thinOracle).resizeRequested
        = some ⟨2000, 0, Resampling.lanczos⟩ ∧
    (processFile cfgDefault thinOracle).result = FileResult.error "height must be > 0" ∧
    (processFile cfgDefault thinOracle).wrote = false :=
  zero_height_resize cfgDefault thinOracle imgThin 500 "height must be > 0"
    rfl rfl (by decide) (by decide) rfl

end CompressPhotos
